import Mathlib

/-!
Verification of the regex field-extraction core of the Advanced Court
Document Analyzer (src/app.py).  The extraction functions are shallowly
embedded over `List Char`; each Python regular expression is realised as a
hand-written matcher that follows the backtracking behaviour of Python's
`re` engine on that concrete pattern.  Character classes are modelled on
their ASCII / Latin-1 semantics, which cover every literal appearing in the
program's patterns and in the inputs considered here.
-/

namespace CourtApp

/-- Python whitespace test (the regex class `\s` and the set stripped by
`str.strip`), restricted to the ASCII / Latin-1 range. -/
def isSpacePy (c : Char) : Bool :=
  c == ' ' || c == '\t' || c == '\n' || c == '\x0b' || c == '\x0c' || c == '\r' ||
  c == '\x1c' || c == '\x1d' || c == '\x1e' || c == '\x1f' || c == '\x85' || c == '\xa0'

/-- The regex class `\d` on ASCII text. -/
def isDigitPy (c : Char) : Bool := c.isDigit

/-- The regex class `[A-Z]`. -/
def isUpperPy (c : Char) : Bool := 'A' ≤ c && c ≤ 'Z'

/-- The regex class `[a-z]`. -/
def isLowerPy (c : Char) : Bool := 'a' ≤ c && c ≤ 'z'

/-- The regex class `[A-Za-z]`. -/
def isAlphaPy (c : Char) : Bool := isUpperPy c || isLowerPy c

/-- Case folding used by `re.IGNORECASE` and `str.lower`, on ASCII letters. -/
def lowerC (c : Char) : Char := c.toLower

/-- Case-insensitive character comparison (`re.IGNORECASE`). -/
def ciEq (a b : Char) : Bool := lowerC a == lowerC b

/-- `str.lower` over the whole text. -/
def lowerL (cs : List Char) : List Char := cs.map lowerC

/-- Does `s` start with the literal `pat` (case-sensitively)? -/
def startsWithL : List Char → List Char → Bool
  | [], _ => true
  | _ :: _, [] => false
  | p :: ps, c :: cs => p == c && startsWithL ps cs

/-- Does `s` start with the literal `pat`, compared case-insensitively? -/
def startsWithCI : List Char → List Char → Bool
  | [], _ => true
  | _ :: _, [] => false
  | p :: ps, c :: cs => ciEq p c && startsWithCI ps cs

/-- Python's substring test `pat in s`. -/
def containsSub (pat : List Char) : List Char → Bool
  | [] => startsWithL pat []
  | c :: s' => startsWithL pat (c :: s') || containsSub pat s'

/-- Python's `str.strip()` (whitespace removed from both ends). -/
def pyStrip (cs : List Char) : List Char :=
  ((cs.dropWhile isSpacePy).reverse.dropWhile isSpacePy).reverse

/-- `occursWithin a b` holds when `a` appears verbatim as a contiguous
substring of `b`. -/
def occursWithin (a b : List Char) : Prop := ∃ u w, b = u ++ a ++ w

/-! ### Primitive pattern pieces

Each primitive consumes a prefix of the text and returns the pair
(consumed, rest).  Greedy character-class quantifiers are realised by
maximal munch; in every pattern of the program the class is disjoint from
the character that can legally follow it, so the finer-grained backtracking
of Python's engine can never produce a different overall result (a shorter
class run leaves a class character in front, which never begins the
continuation). -/

/-- A literal, as in a regex with no special characters. -/
def pmLit (lit : List Char) (cs : List Char) : Option (List Char × List Char) :=
  if startsWithL lit cs then some (cs.take lit.length, cs.drop lit.length) else none

/-- A literal under `re.IGNORECASE`. -/
def pmLitCI (lit : List Char) (cs : List Char) : Option (List Char × List Char) :=
  if startsWithCI lit cs then some (cs.take lit.length, cs.drop lit.length) else none

/-- A character class with `+` (greedy, at least one). -/
def pmCls1 (p : Char → Bool) (cs : List Char) : Option (List Char × List Char) :=
  let c := cs.takeWhile p
  if c.isEmpty then none else some (c, cs.dropWhile p)

/-- A character class with `*` (greedy, possibly empty; never fails). -/
def pmCls0 (p : Char → Bool) (cs : List Char) : List Char × List Char :=
  (cs.takeWhile p, cs.dropWhile p)

/-- A character class with an exact repetition count, as in `\d{4}`. -/
def pmExact (n : Nat) (p : Char → Bool) (cs : List Char) : Option (List Char × List Char) :=
  let c := cs.take n
  if c.length == n && c.all p then some (c, cs.drop n) else none

/-- A greedy optional group `(?:...)?` whose failure leaves the text
unchanged.  When the group succeeds, every continuation that would fail
after it also fails without it for the patterns below, so committing to
the successful group is faithful. -/
def pmOptC (a : List Char → Option (List Char × List Char)) (cs : List Char) :
    List Char × List Char :=
  match a cs with
  | some r => r
  | none => ([], cs)

/-- A lazy `(.*?)` (with `re.DOTALL`, so `.` accepts newlines) that stops at
the first position where `stop` holds; `stop` plays the role of the
zero-width lookahead that follows the group in the pattern. -/
def lazyUntil (stop : List Char → Bool) : List Char → Option (List Char × List Char)
  | [] => if stop [] then some ([], []) else none
  | c :: cs' =>
    if stop (c :: cs') then some ([], c :: cs')
    else
      match lazyUntil stop cs' with
      | some (g, r) => some (c :: g, r)
      | none => none

/-- `re.search`: try the matcher at each start position, left to right. -/
def searchG {α : Type} (m : List Char → Option α) : List Char → Option α
  | [] => m []
  | c :: cs' =>
    match m (c :: cs') with
    | some r => some r
    | none => searchG m cs'

/-- `re.finditer`: repeatedly search and continue after the matched span
(non-overlapping matches; an empty match advances by one character as in
Python).  The fuel argument is set to `length + 1` by the wrappers below,
which is enough because every pattern in the program consumes at least one
character per match. -/
def finditerG {α : Type} (g0 : α → List Char) (m : List Char → Option (α × List Char)) :
    Nat → List Char → List α
  | 0, _ => []
  | fuel + 1, cs =>
    match searchG m cs with
    | none => []
    | some (a, rest) =>
      a :: (if (g0 a).isEmpty then
              match rest with
              | [] => []
              | _ :: r' => finditerG g0 m fuel r'
            else finditerG g0 m fuel rest)

/-! ### `extract_case_numbers` (src/app.py lines 55-95) -/

/-- One regex match for a citation pattern: the whole matched span
(`match.group(0)`) and the two capturing groups. -/
structure CNMatch where
  g0 : List Char
  g1 : List Char
  g2 : List Char
deriving DecidableEq

/-- Structured citation record (the `CaseNumber` pydantic model). -/
structure CaseNumber where
  type : List Char
  nature : Option (List Char)
  sequential_number : List Char
  year : List Char
  full_citation : List Char
deriving DecidableEq

/-- The citation patterns of `extract_case_numbers`, in source order. -/
inductive CNPat
  | p0
  | p1
  | p2
  | p3
deriving DecidableEq

/-- The group `(\d+(?:-\d+)?)` of patterns 1-3: digits with an optional
dash-digits continuation; the optional part is taken exactly when a dash
followed by a digit is present, as in the Python engine. -/
def pmSeqNum (cs : List Char) : Option (List Char × List Char) :=
  match pmCls1 isDigitPy cs with
  | none => none
  | some (d1, r1) =>
    match r1 with
    | '-' :: r2 =>
      match pmCls1 isDigitPy r2 with
      | some (d2, r3) => some (d1 ++ '-' :: d2, r3)
      | none => some (d1, r1)
    | _ => some (d1, r1)

/-- The shared tail `\s*(\d+(?:-\d+)?)\s+of\s+(\d{4})` of citation
patterns 1-3; returns (consumed, group1, group2, rest). -/
def cnTail (cs : List Char) : Option (List Char × List Char × List Char × List Char) :=
  let (w0, r0) := pmCls0 isSpacePy cs
  match pmSeqNum r0 with
  | none => none
  | some (g1, r1) =>
    match pmCls1 isSpacePy r1 with
    | none => none
    | some (w1, r2) =>
      match pmLit ("of".toList) r2 with
      | none => none
      | some (lof, r3) =>
        match pmCls1 isSpacePy r3 with
        | none => none
        | some (w2, r4) =>
          match pmExact 4 isDigitPy r4 with
          | none => none
          | some (g2, r5) => some (w0 ++ g1 ++ w1 ++ lof ++ w2 ++ g2, g1, g2, r5)

/-- Pattern 0: `Appeal\s+\(civil\)\s+(\d+)\s+of\s+(\d{4})`. -/
def cnMatchP0 (cs : List Char) : Option (CNMatch × List Char) :=
  match pmLit ("Appeal".toList) cs with
  | none => none
  | some (a, r1) =>
    match pmCls1 isSpacePy r1 with
    | none => none
    | some (b, r2) =>
      match pmLit ("(civil)".toList) r2 with
      | none => none
      | some (c, r3) =>
        match pmCls1 isSpacePy r3 with
        | none => none
        | some (d, r4) =>
          match pmCls1 isDigitPy r4 with
          | none => none
          | some (g1, r5) =>
            match pmCls1 isSpacePy r5 with
            | none => none
            | some (e, r6) =>
              match pmLit ("of".toList) r6 with
              | none => none
              | some (f, r7) =>
                match pmCls1 isSpacePy r7 with
                | none => none
                | some (g, r8) =>
                  match pmExact 4 isDigitPy r8 with
                  | none => none
                  | some (g2, r9) =>
                    some (⟨a ++ b ++ c ++ d ++ g1 ++ e ++ f ++ g ++ g2, g1, g2⟩, r9)

/-- Pattern 1: `Civil\s+Appeal\s+No\.\s*(\d+(?:-\d+)?)\s+of\s+(\d{4})`. -/
def cnMatchP1 (cs : List Char) : Option (CNMatch × List Char) :=
  match pmLit ("Civil".toList) cs with
  | none => none
  | some (a, r1) =>
    match pmCls1 isSpacePy r1 with
    | none => none
    | some (b, r2) =>
      match pmLit ("Appeal".toList) r2 with
      | none => none
      | some (c, r3) =>
        match pmCls1 isSpacePy r3 with
        | none => none
        | some (d, r4) =>
          match pmLit ("No.".toList) r4 with
          | none => none
          | some (e, r5) =>
            match cnTail r5 with
            | none => none
            | some (t, g1, g2, r6) => some (⟨a ++ b ++ c ++ d ++ e ++ t, g1, g2⟩, r6)

/-- Pattern 2: `Transfer\s+Case\s+\(Civil\)\s+Nos\.\s*(\d+(?:-\d+)?)\s+of\s+(\d{4})`. -/
def cnMatchP2 (cs : List Char) : Option (CNMatch × List Char) :=
  match pmLit ("Transfer".toList) cs with
  | none => none
  | some (a, r1) =>
    match pmCls1 isSpacePy r1 with
    | none => none
    | some (b, r2) =>
      match pmLit ("Case".toList) r2 with
      | none => none
      | some (c, r3) =>
        match pmCls1 isSpacePy r3 with
        | none => none
        | some (d, r4) =>
          match pmLit ("(Civil)".toList) r4 with
          | none => none
          | some (e, r5) =>
            match pmCls1 isSpacePy r5 with
            | none => none
            | some (f, r6) =>
              match pmLit ("Nos.".toList) r6 with
              | none => none
              | some (g, r7) =>
                match cnTail r7 with
                | none => none
                | some (t, g1, g2, r8) =>
                  some (⟨a ++ b ++ c ++ d ++ e ++ f ++ g ++ t, g1, g2⟩, r8)

/-- Pattern 3: `Civil\s+Appeal\s+Nos\.\s*(\d+(?:-\d+)?)\s+of\s+(\d{4})`. -/
def cnMatchP3 (cs : List Char) : Option (CNMatch × List Char) :=
  match pmLit ("Civil".toList) cs with
  | none => none
  | some (a, r1) =>
    match pmCls1 isSpacePy r1 with
    | none => none
    | some (b, r2) =>
      match pmLit ("Appeal".toList) r2 with
      | none => none
      | some (c, r3) =>
        match pmCls1 isSpacePy r3 with
        | none => none
        | some (d, r4) =>
          match pmLit ("Nos.".toList) r4 with
          | none => none
          | some (e, r5) =>
            match cnTail r5 with
            | none => none
            | some (t, g1, g2, r6) => some (⟨a ++ b ++ c ++ d ++ e ++ t, g1, g2⟩, r6)

/-- Dispatch a citation pattern to its matcher. -/
def cnMatchAt : CNPat → List Char → Option (CNMatch × List Char)
  | .p0 => cnMatchP0
  | .p1 => cnMatchP1
  | .p2 => cnMatchP2
  | .p3 => cnMatchP3

/-- `re.search(pattern, text)` for a citation pattern. -/
def cnSearch (p : CNPat) (text : List Char) : Option (CNMatch × List Char) :=
  searchG (cnMatchAt p) text

/-- `re.finditer(pattern, text)` for a citation pattern. -/
def pyFinditerCN (p : CNPat) (text : List Char) : List CNMatch :=
  finditerG (fun m => m.g0) (cnMatchAt p) (text.length + 1) text

/-- The `case_type` chain of lines 84-85: substring tests on the matched
span. -/
def caseTypeOf (g0 : List Char) : List Char :=
  if containsSub ("Civil Appeal".toList) g0 then "Civil Appeal".toList
  else if containsSub ("Transfer Case".toList) g0 then "Transfer Case (Civil)".toList
  else "Appeal".toList

/-- The primary `CaseNumber` of lines 70-76: note that `full_citation` is
rebuilt with an f-string using single spaces, not taken from the text. -/
def mkPrimary (m : CNMatch) : CaseNumber :=
  ⟨"Appeal".toList, some ("civil".toList), m.g1, m.g2,
    "Appeal (civil) ".toList ++ m.g1 ++ " of ".toList ++ m.g2⟩

/-- A related `CaseNumber` of lines 87-93: `full_citation` is
`match.group(0)`. -/
def mkRelated (m : CNMatch) : CaseNumber :=
  ⟨caseTypeOf m.g0, some ("civil".toList), m.g1, m.g2, m.g0⟩

/-- Result of `extract_case_numbers`. -/
structure CaseNumbersOut where
  primary : Option CaseNumber
  related : List CaseNumber
deriving DecidableEq

/-- The body of the related-case loop of lines 79-93: for each pattern in
order, every `finditer` match is kept except a pattern-0 match whose
`group(0)` text equals the primary match's `group(0)` text. -/
def relatedOf (primary_match : Option (CNMatch × List Char)) (text : List Char) :
    List CaseNumber :=
  ([CNPat.p0, CNPat.p1, CNPat.p2, CNPat.p3].map fun p =>
    (pyFinditerCN p text).filterMap fun m =>
      if (p == CNPat.p0) &&
         (match primary_match with
          | some (m0, _) => m.g0 == m0.g0
          | none => false) then
        none
      else some (mkRelated m)).foldr (fun a b => a ++ b) []

/-- `extract_case_numbers` (lines 55-95). -/
def extract_case_numbers (text : List Char) : CaseNumbersOut :=
  let primary_match := cnSearch CNPat.p0 text
  { primary :=
      match primary_match with
      | some (m, _) => some (mkPrimary m)
      | none => none
    related := relatedOf primary_match text }

/-! ### `extract_parties` (src/app.py lines 98-167) -/

/-- The `Party` pydantic model. -/
structure Party where
  name : List Char
  role : List Char
  description : Option (List Char)
deriving DecidableEq

/-- The `ConsolidatedCase` pydantic model. -/
structure ConsolidatedCase where
  case_number : List Char
  petitioner : List Char
  respondent : List Char
deriving DecidableEq

/-- Result of `extract_parties`. -/
structure PartiesOut where
  main : List Party
  consolidated : List ConsolidatedCase
deriving DecidableEq

/-- The anchor `$` without `re.MULTILINE`: end of string, or just before a
newline that ends the string. -/
def dollarEnd (r : List Char) : Bool := r.isEmpty || r == ['\n']

/-- Matcher for `(?:PETITIONER|APPELLANT):\s*(.*?)(?=RESPONDENT:|$)` with
`re.DOTALL | re.IGNORECASE`; returns (group1, rest). -/
def matchPet (cs : List Char) : Option (List Char × List Char) :=
  match
    (match pmLitCI ("PETITIONER:".toList) cs with
     | some x => some x
     | none => pmLitCI ("APPELLANT:".toList) cs) with
  | none => none
  | some (_, r1) =>
    let (_, r2) := pmCls0 isSpacePy r1
    lazyUntil (fun r => startsWithCI ("RESPONDENT:".toList) r || dollarEnd r) r2

/-- Matcher for `RESPONDENT:\s*(.*?)(?=DATE OF JUDGMENT:|$)` with
`re.DOTALL | re.IGNORECASE`; returns (group1, rest). -/
def matchResp (cs : List Char) : Option (List Char × List Char) :=
  match pmLitCI ("RESPONDENT:".toList) cs with
  | none => none
  | some (_, r1) =>
    let (_, r2) := pmCls0 isSpacePy r1
    lazyUntil (fun r => startsWithCI ("DATE OF JUDGMENT:".toList) r || dollarEnd r) r2

/-- The main-party list of lines 102-121: one optional entry per labelled
block, in source order. -/
def mainPartiesOf (text : List Char) : List Party :=
  (match searchG matchPet text with
   | some (g, _) => [⟨pyStrip g, "Petitioner".toList, none⟩]
   | none => []) ++
  (match searchG matchResp text with
   | some (g, _) => [⟨pyStrip g, "Respondent".toList, none⟩]
   | none => [])

/-- One match of the versus pattern `([^\n]+)\s+(?:Versus|vs\.)\s+([^\n]+)`. -/
structure VMatch where
  g0 : List Char
  g1 : List Char
  g2 : List Char
deriving DecidableEq

/-- The alternation `(?:Versus|vs\.)`, tried in source order. -/
def vsAfter (cs : List Char) : Option (List Char × List Char) :=
  match pmLit ("Versus".toList) cs with
  | some x => some x
  | none => pmLit ("vs.".toList) cs

/-- The final `\s+([^\n]+)` of the versus pattern: the whitespace run backs
off from its maximal length until the second group can start (it must be
nonempty and cannot begin with a newline), exactly as Python's engine
backtracks `\s+`; returns (whitespace, group2, rest). -/
def vsTail (cs : List Char) : Nat → Option (List Char × List Char × List Char)
  | 0 => none
  | k + 1 =>
    match cs.drop (k + 1) with
    | [] => vsTail cs k
    | c :: r' =>
      if c == '\n' then vsTail cs k
      else
        some (cs.take (k + 1), (c :: r').takeWhile (fun d => !(d == '\n')),
          (c :: r').dropWhile (fun d => !(d == '\n')))

/-- Group 1 `([^\n]+)` of the versus pattern backs off from the longest
non-newline run, as Python's greedy `+` does; each candidate length is
followed by `\s+`, the versus literal and the tail. -/
def vsG1Try (cs : List Char) : Nat → Option (VMatch × List Char)
  | 0 => none
  | len + 1 =>
    match
      (match pmCls1 isSpacePy (cs.drop (len + 1)) with
       | none => none
       | some (w1, r2) =>
         match vsAfter r2 with
         | none => none
         | some (v, r3) =>
           match vsTail r3 (r3.takeWhile isSpacePy).length with
           | none => none
           | some (w2, g2, r4) =>
             some (⟨cs.take (len + 1) ++ w1 ++ v ++ w2 ++ g2, cs.take (len + 1), g2⟩, r4)) with
    | some x => some x
    | none => vsG1Try cs len

/-- Matcher for the versus pattern at one position. -/
def matchVersus (cs : List Char) : Option (VMatch × List Char) :=
  vsG1Try cs (cs.takeWhile (fun d => !(d == '\n'))).length

/-- `re.finditer(versus_pattern, text)`. -/
def pyFinditerV (text : List Char) : List VMatch :=
  finditerG (fun m => m.g0) matchVersus (text.length + 1) text

/-- The versus scan of lines 127-143: each match becomes a consolidated
case with the constant case number "Related Case", kept only when neither
party name already appears among the main parties of the same role. -/
def versusCases (main : List Party) (text : List Char) : List ConsolidatedCase :=
  (pyFinditerV text).filterMap fun m =>
    let petitioner := pyStrip m.g1
    let respondent := pyStrip m.g2
    let main_petitioners := (main.filter fun p => p.role == "Petitioner".toList).map fun p => p.name
    let main_respondents := (main.filter fun p => p.role == "Respondent".toList).map fun p => p.name
    if !(main_petitioners.contains petitioner) && !(main_respondents.contains respondent) then
      some ⟨"Related Case".toList, petitioner, respondent⟩
    else none

/-- One match of `WITH\s+(.*?)(?=WITH|\n\n|\Z)` (`re.DOTALL`). -/
structure WMatch where
  g0 : List Char
  g1 : List Char
deriving DecidableEq

/-- The lookahead `(?=WITH|\n\n|\Z)` of the consolidated pattern. -/
def stopWith (r : List Char) : Bool :=
  startsWithL ("WITH".toList) r || startsWithL ['\n', '\n'] r || r.isEmpty

/-- Matcher for the consolidated pattern at one position. -/
def matchWith (cs : List Char) : Option (WMatch × List Char) :=
  match pmLit ("WITH".toList) cs with
  | none => none
  | some (w, r1) =>
    match pmCls1 isSpacePy r1 with
    | none => none
    | some (w1, r2) =>
      match lazyUntil stopWith r2 with
      | none => none
      | some (g, r) => some (⟨w ++ w1 ++ g, g⟩, r)

/-- `re.findall(consolidated_pattern, text)` (group-1 strings). -/
def pyFindallWith (text : List Char) : List (List Char) :=
  (finditerG (fun m => m.g0) matchWith (text.length + 1) text).map fun m => m.g1

/-- One step of the per-section line loop of lines 152-158, with the state
(case_number, petitioner, respondent). -/
def withStep (lines : List (List Char)) (i : Nat)
    (st : List Char × List Char × List Char) : List Char × List Char × List Char :=
  let line := lines.getD i []
  let (cn, pet, resp) := st
  if containsSub ("Civil Appeal No.".toList) line then (pyStrip line, pet, resp)
  else if containsSub ("...".toList) line && pet.isEmpty then
    (cn, if 0 < i then pyStrip (lines.getD (i - 1) []) else [], resp)
  else if containsSub ("Versus".toList) line && i + 1 < lines.length then
    (cn, pet, pyStrip (lines.getD (i + 1) []))
  else st

/-- Run the line loop over indices `i, i+1, ...` for `k` steps. -/
def withGo (lines : List (List Char)) :
    Nat → Nat → List Char × List Char × List Char → List Char × List Char × List Char
  | 0, _, st => st
  | k + 1, i, st => withGo lines k (i + 1) (withStep lines i st)

/-- Lines 146-165 for one "WITH" section: strip, split on newlines, scan,
and keep the record when a case number and at least one party was found. -/
def withCaseOf (sec : List Char) : Option ConsolidatedCase :=
  let lines := (pyStrip sec).splitOn '\n'
  let (cn, pet, resp) := withGo lines lines.length 0 ([], [], [])
  if !cn.isEmpty && (!pet.isEmpty || !resp.isEmpty) then some ⟨cn, pet, resp⟩ else none

/-- All consolidated cases produced by the "WITH" section scan. -/
def withCases (text : List Char) : List ConsolidatedCase :=
  (pyFindallWith text).filterMap withCaseOf

/-- `extract_parties` (lines 98-167): the versus-scan entries precede the
"WITH"-section entries, as in the source. -/
def extract_parties (text : List Char) : PartiesOut :=
  let main := mainPartiesOf text
  ⟨main, versusCases main text ++ withCases text⟩

/-! ### `extract_judgment_date` (src/app.py lines 170-183) -/

/-- The tail `(?:st|nd|rd|th)?\s+[A-Za-z]+,\s+\d{4}` shared by date
patterns 1 and 2 (all searched with `re.IGNORECASE`).  The ordinal
suffixes have pairwise distinct first letters, so at most one alternative
can apply and committing to it is faithful. -/
def dateTail (cs : List Char) : Option (List Char × List Char) :=
  let (s1, r1) := pmOptC (fun s =>
    match pmLitCI ("st".toList) s with
    | some x => some x
    | none =>
      match pmLitCI ("nd".toList) s with
      | some x => some x
      | none =>
        match pmLitCI ("rd".toList) s with
        | some x => some x
        | none => pmLitCI ("th".toList) s) cs
  match pmCls1 isSpacePy r1 with
  | none => none
  | some (s2, r2) =>
    match pmCls1 isAlphaPy r2 with
    | none => none
    | some (s3, r3) =>
      match pmLit [','] r3 with
      | none => none
      | some (s4, r4) =>
        match pmCls1 isSpacePy r4 with
        | none => none
        | some (s5, r5) =>
          match pmExact 4 isDigitPy r5 with
          | none => none
          | some (s6, r6) => some (s1 ++ s2 ++ s3 ++ s4 ++ s5 ++ s6, r6)

/-- The group `(\d{1,2}(?:st|nd|rd|th)?\s+[A-Za-z]+,\s+\d{4})`: the day
number tries two digits first and backs off to one, as Python's greedy
`{1,2}` does. -/
def dateGroup (cs : List Char) : Option (List Char × List Char) :=
  match
    (match pmExact 2 isDigitPy cs with
     | none => none
     | some (d, r) =>
       match dateTail r with
       | none => none
       | some (t, r') => some (d ++ t, r')) with
  | some x => some x
  | none =>
    match pmExact 1 isDigitPy cs with
    | none => none
    | some (d, r) =>
      match dateTail r with
      | none => none
      | some (t, r') => some (d ++ t, r')

/-- Date pattern 0: `DATE OF JUDGMENT:\s*(\d{2}/\d{2}/\d{4})`; returns
(group1, rest). -/
def matchD0 (cs : List Char) : Option (List Char × List Char) :=
  match pmLitCI ("DATE OF JUDGMENT:".toList) cs with
  | none => none
  | some (_, r1) =>
    let (_, r2) := pmCls0 isSpacePy r1
    match pmExact 2 isDigitPy r2 with
    | none => none
    | some (a, r3) =>
      match pmLit ['/'] r3 with
      | none => none
      | some (b, r4) =>
        match pmExact 2 isDigitPy r4 with
        | none => none
        | some (c, r5) =>
          match pmLit ['/'] r5 with
          | none => none
          | some (d, r6) =>
            match pmExact 4 isDigitPy r6 with
            | none => none
            | some (e, r7) => some (a ++ b ++ c ++ d ++ e, r7)

/-- Date pattern 1: `Dated:\s*(\d{1,2}(?:st|nd|rd|th)?\s+[A-Za-z]+,\s+\d{4})`. -/
def matchD1 (cs : List Char) : Option (List Char × List Char) :=
  match pmLitCI ("Dated:".toList) cs with
  | none => none
  | some (_, r1) =>
    let (_, r2) := pmCls0 isSpacePy r1
    dateGroup r2

/-- Date pattern 2: `judgment delivered on\s*:\s*(\d{1,2}(?:st|nd|rd|th)?\s+[A-Za-z]+,\s+\d{4})`. -/
def matchD2 (cs : List Char) : Option (List Char × List Char) :=
  match pmLitCI ("judgment delivered on".toList) cs with
  | none => none
  | some (_, r1) =>
    let (_, r2) := pmCls0 isSpacePy r1
    match pmLit [':'] r2 with
    | none => none
    | some (_, r3) =>
      let (_, r4) := pmCls0 isSpacePy r3
      dateGroup r4

/-- `extract_judgment_date` (lines 170-183): the three date patterns are
tried in order and the first match's group is returned stripped; the
sentinel is returned when none matches. -/
def extract_judgment_date (text : List Char) : List Char :=
  match searchG matchD0 text with
  | some (g, _) => pyStrip g
  | none =>
    match searchG matchD1 text with
    | some (g, _) => pyStrip g
    | none =>
      match searchG matchD2 text with
      | some (g, _) => pyStrip g
      | none => "Date not found".toList

/-! ### `extract_case_background` (src/app.py lines 186-226) -/

/-- Result of `extract_case_background`. -/
structure BackgroundOut where
  case_background : List Char
  constitutional_issues : List (List Char)
  challenged_acts : List (List Char)
deriving DecidableEq

/-- The terminator `(?:\n\d+\.|\Z)` of background pattern 0, used as the
stopping test of the lazy group (the consumed terminator is irrelevant
because the pattern is only applied with a single `re.search`). -/
def stopB0 (r : List Char) : Bool :=
  r.isEmpty ||
  (match r with
   | '\n' :: rs =>
     let ds := rs.takeWhile isDigitPy
     !ds.isEmpty && startsWithL ['.'] (rs.drop ds.length)
   | _ => false)

/-- Background pattern 0: `The Constitutional validity of(.*?)(?:\n\d+\.|\Z)`
with `re.DOTALL`; returns (group1, rest). -/
def matchB0 (cs : List Char) : Option (List Char × List Char) :=
  match pmLit ("The Constitutional validity of".toList) cs with
  | none => none
  | some (_, r1) => lazyUntil stopB0 r1

/-- The lookahead `(?=\n[A-Z\s]+:|\Z)` of background patterns 1 and 2.
The class run is maximal: shrinking it leaves an upper-case or whitespace
character in front, which is never the required colon. -/
def stopB12 (r : List Char) : Bool :=
  r.isEmpty ||
  (match r with
   | '\n' :: rs =>
     let run := rs.takeWhile fun d => isUpperPy d || isSpacePy d
     !run.isEmpty && startsWithL [':'] (rs.drop run.length)
   | _ => false)

/-- The step `\s+\n+` (pattern 1) and `\s*\n+` (pattern 2) after the
heading literal: Python's engine backs the greedy `\s+`/`\s*` off from its
maximal run until the remainder starts with a newline, so the whitespace
part ends at the last newline of the run and `\n+` consumes exactly that
newline.  `needOne` demands at least one whitespace character before the
final newline (the `\s+` case).  Returns the text after the consumed
newline, or `none` when no admissible split exists. -/
def wsThenNl (needOne : Bool) (r1 : List Char) : Option (List Char) :=
  let w := r1.takeWhile isSpacePy
  let tailLen := (w.reverse.takeWhile fun d => !(d == '\n')).length
  if w.contains '\n' && (!needOne || tailLen + 2 ≤ w.length) then
    some (r1.drop (w.length - tailLen))
  else none

/-- Background pattern 1: `JUDGMENT\s+\n+(.*?)(?=\n[A-Z\s]+:|\Z)` with
`re.DOTALL`; returns (group1, rest). -/
def matchB1 (cs : List Char) : Option (List Char × List Char) :=
  match pmLit ("JUDGMENT".toList) cs with
  | none => none
  | some (_, r1) =>
    match wsThenNl true r1 with
    | none => none
    | some r2 => lazyUntil stopB12 r2

/-- Background pattern 2:
`(?:INTRODUCTION|BACKGROUND|FACTS)\s*\n+(.*?)(?=\n[A-Z\s]+:|\Z)` with
`re.DOTALL`; the heading alternatives have distinct first letters. -/
def matchB2 (cs : List Char) : Option (List Char × List Char) :=
  match
    (match pmLit ("INTRODUCTION".toList) cs with
     | some x => some x
     | none =>
       match pmLit ("BACKGROUND".toList) cs with
       | some x => some x
       | none => pmLit ("FACTS".toList) cs) with
  | none => none
  | some (_, r1) =>
    match wsThenNl false r1 with
    | none => none
    | some r2 => lazyUntil stopB12 r2

/-- The lookahead `(?=\n\n|\Z)` of the header-section fallback. -/
def stopB3 (r : List Char) : Bool :=
  r.isEmpty || startsWithL ['\n', '\n'] r

/-- The fallback `JUDGMENT.*?\n+(.*?)(?=\n\n|\Z)` of lines 211-213 with
`re.DOTALL`: the lazy `.*?` stops at the first newline after the literal,
then `\n+` greedily consumes the newline run. -/
def matchB3 (cs : List Char) : Option (List Char × List Char) :=
  match pmLit ("JUDGMENT".toList) cs with
  | none => none
  | some (_, r1) =>
    let pre := r1.takeWhile fun d => !(d == '\n')
    match r1.drop pre.length with
    | [] => none
    | nl :: rest =>
      let after := nl :: rest
      let nls := after.takeWhile fun d => d == '\n'
      lazyUntil stopB3 (after.drop nls.length)

/-- The first-match loop over the three background patterns (lines
202-206), followed by the header-section fallback when the stripped result
is empty (lines 209-213). -/
def backgroundTextOf (text : List Char) : List Char :=
  let b :=
    match searchG matchB0 text with
    | some (g, _) => pyStrip g
    | none =>
      match searchG matchB1 text with
      | some (g, _) => pyStrip g
      | none =>
        match searchG matchB2 text with
        | some (g, _) => pyStrip g
        | none => []
  if b.isEmpty then
    match searchG matchB3 text with
    | some (g, _) => pyStrip g
    | none => b
  else b

/-- The body `\s+[A-Z][a-z]+` of the word star of the act pattern. -/
def actBody (cs : List Char) : Option (List Char × List Char) :=
  match pmCls1 isSpacePy cs with
  | none => none
  | some (w, r1) =>
    match pmExact 1 isUpperPy r1 with
    | none => none
    | some (u, r2) =>
      match pmCls1 isLowerPy r2 with
      | none => none
      | some (l, r3) => some (w ++ u ++ l, r3)

/-- The tail `\s+Act,\s+\d{4}` of the act pattern. -/
def actTail (cs : List Char) : Option (List Char × List Char) :=
  match pmCls1 isSpacePy cs with
  | none => none
  | some (w1, r1) =>
    match pmLit ("Act,".toList) r1 with
    | none => none
    | some (a, r2) =>
      match pmCls1 isSpacePy r2 with
      | none => none
      | some (w2, r3) =>
        match pmExact 4 isDigitPy r3 with
        | none => none
        | some (d, r4) => some (w1 ++ a ++ w2 ++ d, r4)

/-- The greedy star `(?:\s+[A-Z][a-z]+)*` followed by the continuation
`\s+Act,\s+\d{4}`: another iteration is preferred, and on failure the last
iteration is dropped and the continuation retried, exactly the order in
which Python's engine explores the star.  Per-iteration class runs are
maximal: shrinking one leaves a lower-case letter or a whitespace
character in front, and neither can begin another iteration nor the
`\s+Act,` continuation where the maximal run could not.  The fuel is set
to the text length, enough because each iteration consumes at least one
character.  Returns (star text, continuation text, rest). -/
def starLoop : Nat → List Char → Option (List Char × List Char × List Char)
  | 0, cs =>
    match actTail cs with
    | some (tl, r) => some ([], tl, r)
    | none => none
  | fuel + 1, cs =>
    match actBody cs with
    | none =>
      match actTail cs with
      | some (tl, r) => some ([], tl, r)
      | none => none
    | some (c, r) =>
      match starLoop fuel r with
      | some (st, tl, r') => some (c ++ st, tl, r')
      | none =>
        match actTail cs with
        | some (tl, r') => some ([], tl, r')
        | none => none

/-- Matcher for the act pattern
`((?:The\s+)?[A-Z][a-z]+(?:\s+[A-Z][a-z]+)*\s+Act,\s+\d{4})` at one
position; the single group is the whole match. -/
def matchAct (cs : List Char) : Option (List Char × List Char) :=
  let (th, r1) := pmOptC (fun s =>
    match pmLit ("The".toList) s with
    | none => none
    | some (t, r) =>
      match pmCls1 isSpacePy r with
      | none => none
      | some (w, r') => some (t ++ w, r')) cs
  match pmExact 1 isUpperPy r1 with
  | none => none
  | some (u, r2) =>
    match pmCls1 isLowerPy r2 with
    | none => none
    | some (l, r3) =>
      match starLoop r3.length r3 with
      | none => none
      | some (st, tl, r4) => some (th ++ u ++ l ++ st ++ tl, r4)

/-- `re.findall(act_pattern, background)`: group 1 is the whole match. -/
def pyFindallAct (text : List Char) : List (List Char) :=
  finditerG (fun g => g) matchAct (text.length + 1) text

/-- `extract_case_background` (lines 186-226). -/
def extract_case_background (text : List Char) : BackgroundOut :=
  let bg := backgroundTextOf text
  let issues :=
    (if containsSub ("constitutional validity".toList) (lowerL text) then
       ["Constitutional validity of state legislation".toList]
     else []) ++
    (if containsSub ("jurisdiction".toList) (lowerL text) &&
        containsSub ("high court".toList) (lowerL text) then
       ["Jurisdiction of High Courts".toList]
     else [])
  ⟨bg, issues, pyFindallAct bg⟩

/-! ### `extract_court_case_info` (src/app.py lines 229-261)

The temporary-file and PDF-reading steps belong to the out-of-scope Text
Source; the record below is assembled from the document text exactly as in
lines 241-256. -/

/-- The per-document result record. -/
structure ExtractedCase where
  primary_case_number : Option CaseNumber
  related_case_numbers : List CaseNumber
  main_parties : List Party
  consolidated_cases : List ConsolidatedCase
  judgment_date : List Char
  case_background : List Char
  constitutional_issues : List (List Char)
  challenged_acts : List (List Char)
deriving DecidableEq

/-- `extract_court_case_info`, from the document text onward. -/
def extract_court_case_info (text : List Char) : ExtractedCase :=
  let case_numbers := extract_case_numbers text
  let parties := extract_parties text
  let judgment_date := extract_judgment_date text
  let background_info := extract_case_background text
  { primary_case_number := case_numbers.primary
    related_case_numbers := case_numbers.related
    main_parties := parties.main
    consolidated_cases := parties.consolidated
    judgment_date := judgment_date
    case_background := background_info.case_background
    constitutional_issues := background_info.constitutional_issues
    challenged_acts := background_info.challenged_acts }

/-! ### Helper lemmas -/

theorem startsWithL_iff (p : List Char) : ∀ s, startsWithL p s = true ↔ ∃ w, s = p ++ w := by
  induction p with
  | nil => intro s; simp [startsWithL]
  | cons a p ih =>
    intro s
    cases s with
    | nil => simp [startsWithL]
    | cons c s' =>
      simp only [startsWithL, Bool.and_eq_true, beq_iff_eq, ih s', List.cons_append,
        List.cons.injEq]
      constructor
      · rintro ⟨rfl, w, rfl⟩; exact ⟨w, rfl, rfl⟩
      · rintro ⟨w, rfl, rfl⟩; exact ⟨rfl, w, rfl⟩

theorem containsSub_iff (p : List Char) : ∀ s, containsSub p s = true ↔ occursWithin p s := by
  intro s
  induction s with
  | nil =>
    simp only [containsSub, startsWithL_iff, occursWithin]
    constructor
    · rintro ⟨w, hw⟩; exact ⟨[], w, by simpa using hw⟩
    · rintro ⟨u, w, h⟩
      cases u with
      | nil => exact ⟨w, by simpa using h⟩
      | cons a u' => simp at h
  | cons c s' ih =>
    simp only [containsSub, Bool.or_eq_true, startsWithL_iff, ih, occursWithin]
    constructor
    · rintro (⟨w, hw⟩ | ⟨u, w, hw⟩)
      · exact ⟨[], w, by simpa using hw⟩
      · exact ⟨c :: u, w, by simp [hw]⟩
    · rintro ⟨u, w, hw⟩
      cases u with
      | nil => exact Or.inl ⟨w, by simpa using hw⟩
      | cons a u' =>
        simp only [List.cons_append, List.cons.injEq] at hw
        exact Or.inr ⟨u', w, hw.2⟩

theorem filterMap_some_eq_map {α β : Type} (f : α → β) :
    ∀ l : List α, (l.filterMap fun a => some (f a)) = l.map f := by
  intro l
  induction l with
  | nil => rfl
  | cons a l ih => simp [List.filterMap_cons, ih]

theorem filterMap_ite_eq_filter_map {α β : Type} (c : α → Bool) (f : α → β) :
    ∀ l : List α,
      (l.filterMap fun a => if c a then none else some (f a)) =
        (l.filter fun a => !(c a)).map f := by
  intro l
  induction l with
  | nil => rfl
  | cons a l ih =>
    cases hc : c a <;> simp [List.filterMap_cons, List.filter_cons, hc, ih]

theorem pyFinditerCN_eq_nil_of_search_none (p : CNPat) (t : List Char)
    (h : cnSearch p t = none) : pyFinditerCN p t = [] := by
  unfold cnSearch at h
  simp [pyFinditerCN, finditerG, h]

/-! ### Claim theorems -/

/-- C1 (code bug): the claim — and the `full_citation` field's own
description "Full citation as appears in document" — require the primary
citation's full-citation text to be the literal matched substring, but
lines 70-76 rebuild it from the captured groups with single spaces.  On a
text whose citation uses a double space, the rebuilt string does not occur
in the document at all, while the related entries (which use
`match.group(0)`) are unaffected. -/
theorem c1_full_citation_bug :
    (extract_case_numbers ("Appeal (civil)  7 of 2020".toList)).primary =
      some ⟨"Appeal".toList, some ("civil".toList), "7".toList, "2020".toList,
        "Appeal (civil) 7 of 2020".toList⟩ ∧
    ¬ occursWithin ("Appeal (civil) 7 of 2020".toList) ("Appeal (civil)  7 of 2020".toList) := by
  constructor
  · decide
  · intro h
    rw [← containsSub_iff] at h
    exact absurd h (by decide)

/-- C2 (counterexample): on a text whose only citation matches the second
pattern, the claim requires that citation to become the primary, but the
code (line 68) searches only the first pattern for the primary, so the
primary is null while the related list is not empty. -/
theorem c2_counterexample :
    (extract_case_numbers ("Civil Appeal No. 5 of 2020".toList)).primary = none ∧
    (extract_case_numbers ("Civil Appeal No. 5 of 2020".toList)).related =
      [⟨"Civil Appeal".toList, some ("civil".toList), "5".toList, "2020".toList,
        "Civil Appeal No. 5 of 2020".toList⟩] := by
  constructor
  · decide
  · decide

/-- C3 (counterexample): the claim requires only the primary's own span to
be excluded from the related list, but line 81 compares matched text, so
on a text containing the same citation twice both occurrences are dropped
and the related list is empty where the claim requires one entry. -/
theorem c3_counterexample :
    (extract_case_numbers
        ("Appeal (civil) 123 of 2020 and Appeal (civil) 123 of 2020".toList)).primary =
      some ⟨"Appeal".toList, some ("civil".toList), "123".toList, "2020".toList,
        "Appeal (civil) 123 of 2020".toList⟩ ∧
    (extract_case_numbers
        ("Appeal (civil) 123 of 2020 and Appeal (civil) 123 of 2020".toList)).related = [] := by
  constructor
  · decide
  · decide

/-- C2 (amended): the primary citation is determined solely by the first
pattern "Appeal (civil) N of YYYY" — it is the first match of that pattern
and is null whenever that pattern has no match, even when the other
patterns do match; when no pattern matches anywhere in the text, the
primary is null and the related list is empty. -/
theorem c2_primary_from_first_pattern_only (t : List Char) :
    (extract_case_numbers t).primary =
      Option.map (fun m => mkPrimary m.1) (cnSearch CNPat.p0 t) ∧
    (cnSearch CNPat.p0 t = none → cnSearch CNPat.p1 t = none →
     cnSearch CNPat.p2 t = none → cnSearch CNPat.p3 t = none →
      (extract_case_numbers t).primary = none ∧ (extract_case_numbers t).related = []) := by
  constructor
  · cases h : cnSearch CNPat.p0 t with
    | none => simp [extract_case_numbers, h]
    | some m => simp [extract_case_numbers, h]
  · intro h0 h1 h2 h3
    constructor
    · simp [extract_case_numbers, h0]
    · have e0 := pyFinditerCN_eq_nil_of_search_none CNPat.p0 t h0
      have e1 := pyFinditerCN_eq_nil_of_search_none CNPat.p1 t h1
      have e2 := pyFinditerCN_eq_nil_of_search_none CNPat.p2 t h2
      have e3 := pyFinditerCN_eq_nil_of_search_none CNPat.p3 t h3
      simp [extract_case_numbers, relatedOf, e0, e1, e2, e3]

/-- C2 (witness): a text without any citation yields a null primary and an
empty related list. -/
theorem c2_witness :
    (extract_case_numbers ("no citations in this text".toList)).primary = none ∧
    (extract_case_numbers ("no citations in this text".toList)).related = [] :=
  (c2_primary_from_first_pattern_only _).2 (by decide) (by decide) (by decide) (by decide)

/-- C3 (amended): the related list contains one entry for every match of
every pattern, in pattern order, except that every first-pattern match
whose matched text equals the primary match's text is excluded (not just
the primary's own span); no other deduplication is performed, so all other
duplicates are retained as separate entries. -/
theorem c3_related_all_matches (t : List Char) :
    (extract_case_numbers t).related =
      ((pyFinditerCN CNPat.p0 t).filter fun m =>
          !(match cnSearch CNPat.p0 t with
            | some (m0, _) => m.g0 == m0.g0
            | none => false)).map mkRelated ++
      ((pyFinditerCN CNPat.p1 t).map mkRelated ++
       ((pyFinditerCN CNPat.p2 t).map mkRelated ++
        ((pyFinditerCN CNPat.p3 t).map mkRelated ++ []))) := by
  show relatedOf (cnSearch CNPat.p0 t) t = _
  unfold relatedOf
  simp only [List.map_cons, List.map_nil, List.foldr_cons, List.foldr_nil, List.append_nil]
  rw [show (CNPat.p0 == CNPat.p0) = true from rfl,
    show (CNPat.p1 == CNPat.p0) = false from rfl,
    show (CNPat.p2 == CNPat.p0) = false from rfl,
    show (CNPat.p3 == CNPat.p0) = false from rfl]
  simp only [Bool.true_and, Bool.false_and, Bool.false_eq_true, if_false,
    filterMap_some_eq_map,
    filterMap_ite_eq_filter_map
      (fun m : CNMatch =>
        match cnSearch CNPat.p0 t with
        | some (m0, _) => m.g0 == m0.g0
        | none => false) mkRelated]

/-- C4: on the empty document text every field of the extraction record is
its empty or sentinel default: no primary citation, empty lists, the empty
background string and the date sentinel.  The embedded extractor is a
total function, so no input can raise. -/
theorem c4_empty_input_defaults :
    extract_court_case_info [] =
      { primary_case_number := none
        related_case_numbers := []
        main_parties := []
        consolidated_cases := []
        judgment_date := "Date not found".toList
        case_background := []
        constitutional_issues := []
        challenged_acts := [] } := by
  decide

theorem digit_not_space {c : Char} (h : isDigitPy c = true) : isSpacePy c = false := by
  cases hs : isSpacePy c
  · rfl
  · exfalso
    simp only [isSpacePy, Bool.or_eq_true, beq_iff_eq] at hs
    rcases hs with ((((((((((rfl | rfl) | rfl) | rfl) | rfl) | rfl) | rfl) | rfl) | rfl) |
      rfl) | rfl) | rfl <;>
      exact absurd h (by decide)

theorem pmExact_spec {n : Nat} {p : Char → Bool} {cs c r : List Char}
    (h : pmExact n p cs = some (c, r)) : c.length = n ∧ c.all p = true := by
  simp only [pmExact] at h
  split at h
  · rename_i hcond
    simp only [Option.some.injEq, Prod.mk.injEq] at h
    obtain ⟨h1, h2⟩ := h
    simp only [Bool.and_eq_true, beq_iff_eq] at hcond
    subst h1
    exact ⟨hcond.1, hcond.2⟩
  · exact absurd h (by simp)

theorem pmExact_ne_nil {n : Nat} {p : Char → Bool} {cs c r : List Char}
    (hn : 0 < n) (h : pmExact n p cs = some (c, r)) : c ≠ [] := by
  obtain ⟨hl, _⟩ := pmExact_spec h
  intro he
  rw [he] at hl
  simp at hl
  omega

theorem getLast?_digit_of_pmExact {n : Nat} {p : Char → Bool} {cs c r : List Char}
    (hn : 0 < n) (h : pmExact n p cs = some (c, r)) :
    ∃ b, c.getLast? = some b ∧ p b = true := by
  obtain ⟨hl, hall⟩ := pmExact_spec h
  have hne : c ≠ [] := pmExact_ne_nil hn h
  refine ⟨c.getLast hne, List.getLast?_eq_getLast_of_ne_nil hne, ?_⟩
  rw [List.all_eq_true] at hall
  exact hall _ (List.getLast_mem hne)

theorem head?_digit_of_pmExact {n : Nat} {p : Char → Bool} {cs c r : List Char}
    (hn : 0 < n) (h : pmExact n p cs = some (c, r)) :
    ∃ a, c.head? = some a ∧ p a = true := by
  obtain ⟨hl, hall⟩ := pmExact_spec h
  cases c with
  | nil => simp at hl; omega
  | cons x t =>
    refine ⟨x, rfl, ?_⟩
    rw [List.all_eq_true] at hall
    exact hall _ (by simp)

theorem pyStrip_of_ends {l : List Char}
    (h1 : ∃ a, l.head? = some a ∧ isSpacePy a = false)
    (h2 : ∃ b, l.getLast? = some b ∧ isSpacePy b = false) : pyStrip l = l := by
  obtain ⟨a, ha1, ha2⟩ := h1
  obtain ⟨b, hb1, hb2⟩ := h2
  have hd : l.dropWhile isSpacePy = l := by
    cases l with
    | nil => simp at ha1
    | cons x t =>
      have hx : x = a := by injection ha1
      rw [List.dropWhile_cons, hx, ha2]
      simp
  rcases List.eq_nil_or_concat l with rfl | ⟨init, x, rfl⟩
  · simp at ha1
  · rw [List.concat_eq_append] at ha1 hb1 hd ⊢
    have hx : x = b := by
      rw [List.getLast?_concat] at hb1
      exact Option.some.inj hb1
    subst hx
    unfold pyStrip
    rw [hd]
    rw [show (init ++ [x]).reverse = x :: init.reverse from by simp]
    rw [List.dropWhile_cons, hb2]
    simp

theorem searchG_forall {α : Type} (m : List Char → Option α) (P : α → Prop)
    (hm : ∀ cs x, m cs = some x → P x) : ∀ cs x, searchG m cs = some x → P x := by
  intro cs
  induction cs with
  | nil => intro x h; exact hm [] x h
  | cons c cs' ih =>
    intro x h
    rw [searchG] at h
    cases hc : m (c :: cs') with
    | some y => rw [hc] at h; injection h with h'; exact h' ▸ hm _ _ hc
    | none => rw [hc] at h; exact ih x h

/-- The group captured by the shared date tail ends with a digit (its last
component is `\d{4}`). -/
theorem dateTail_last {cs t r : List Char} (h : dateTail cs = some (t, r)) :
    ∃ b, t.getLast? = some b ∧ isDigitPy b = true := by
  unfold dateTail at h
  rcases hopt : pmOptC (fun s =>
    match pmLitCI ("st".toList) s with
    | some x => some x
    | none =>
      match pmLitCI ("nd".toList) s with
      | some x => some x
      | none =>
        match pmLitCI ("rd".toList) s with
        | some x => some x
        | none => pmLitCI ("th".toList) s) cs with ⟨s1, r1⟩
  rw [hopt] at h
  simp only at h
  cases h2 : pmCls1 isSpacePy r1 with
  | none => rw [h2] at h; simp at h
  | some x2 =>
    obtain ⟨s2, r2⟩ := x2
    rw [h2] at h
    simp only at h
    cases h3 : pmCls1 isAlphaPy r2 with
    | none => rw [h3] at h; simp at h
    | some x3 =>
      obtain ⟨s3, r3⟩ := x3
      rw [h3] at h
      simp only at h
      cases h4 : pmLit [','] r3 with
      | none => rw [h4] at h; simp at h
      | some x4 =>
        obtain ⟨s4, r4⟩ := x4
        rw [h4] at h
        simp only at h
        cases h5 : pmCls1 isSpacePy r4 with
        | none => rw [h5] at h; simp at h
        | some x5 =>
          obtain ⟨s5, r5⟩ := x5
          rw [h5] at h
          simp only at h
          cases h6 : pmExact 4 isDigitPy r5 with
          | none => rw [h6] at h; simp at h
          | some x6 =>
            obtain ⟨s6, r6⟩ := x6
            rw [h6] at h
            simp only [Option.some.injEq, Prod.mk.injEq] at h
            obtain ⟨rfl, rfl⟩ := h
            obtain ⟨b, hb, hbd⟩ := getLast?_digit_of_pmExact (by omega) h6
            refine ⟨b, ?_, hbd⟩
            rw [List.getLast?_append_of_ne_nil _ (pmExact_ne_nil (by omega) h6)]
            exact hb

/-- The day-number group starts and ends with a digit. -/
theorem dateGroup_shape {cs t r : List Char} (h : dateGroup cs = some (t, r)) :
    (∃ a, t.head? = some a ∧ isDigitPy a = true) ∧
    (∃ b, t.getLast? = some b ∧ isDigitPy b = true) := by
  unfold dateGroup at h
  have main : ∀ n (d rd td r' : List Char), pmExact n isDigitPy cs = some (d, rd) →
      0 < n → dateTail rd = some (td, r') → t = d ++ td →
      (∃ a, t.head? = some a ∧ isDigitPy a = true) ∧
      (∃ b, t.getLast? = some b ∧ isDigitPy b = true) := by
    intro n d rd td r' hex hn htail ht
    obtain ⟨a, hha, hda⟩ := head?_digit_of_pmExact hn hex
    obtain ⟨b, hhb, hdb⟩ := dateTail_last htail
    subst ht
    constructor
    · exact ⟨a, by rw [List.head?_append_of_ne_nil _ (pmExact_ne_nil hn hex)]; exact hha, hda⟩
    · refine ⟨b, ?_, hdb⟩
      have htd : td ≠ [] := by
        intro he
        rw [he] at hhb
        simp at hhb
      rw [List.getLast?_append_of_ne_nil _ htd]
      exact hhb
  cases h2 : pmExact 2 isDigitPy cs with
  | some x2 =>
    obtain ⟨d2, rd2⟩ := x2
    rw [h2] at h
    simp only at h
    cases ht2 : dateTail rd2 with
    | some y2 =>
      obtain ⟨td2, rt2⟩ := y2
      rw [ht2] at h
      simp only [Option.some.injEq, Prod.mk.injEq] at h
      obtain ⟨rfl, rfl⟩ := h
      exact main 2 d2 rd2 td2 rt2 h2 (by omega) ht2 rfl
    | none =>
      rw [ht2] at h
      simp only at h
      cases h1 : pmExact 1 isDigitPy cs with
      | none => rw [h1] at h; simp at h
      | some x1 =>
        obtain ⟨d1, rd1⟩ := x1
        rw [h1] at h
        simp only at h
        cases ht1 : dateTail rd1 with
        | none => rw [ht1] at h; simp at h
        | some y1 =>
          obtain ⟨td1, rt1⟩ := y1
          rw [ht1] at h
          simp only [Option.some.injEq, Prod.mk.injEq] at h
          obtain ⟨rfl, rfl⟩ := h
          exact main 1 d1 rd1 td1 rt1 h1 (by omega) ht1 rfl
  | none =>
    rw [h2] at h
    simp only at h
    cases h1 : pmExact 1 isDigitPy cs with
    | none => rw [h1] at h; simp at h
    | some x1 =>
      obtain ⟨d1, rd1⟩ := x1
      rw [h1] at h
      simp only at h
      cases ht1 : dateTail rd1 with
      | none => rw [ht1] at h; simp at h
      | some y1 =>
        obtain ⟨td1, rt1⟩ := y1
        rw [ht1] at h
        simp only [Option.some.injEq, Prod.mk.injEq] at h
        obtain ⟨rfl, rfl⟩ := h
        exact main 1 d1 rd1 td1 rt1 h1 (by omega) ht1 rfl

/-- The group captured by date pattern 0 starts and ends with a digit. -/
theorem matchD0_shape {cs t r : List Char} (h : matchD0 cs = some (t, r)) :
    (∃ a, t.head? = some a ∧ isDigitPy a = true) ∧
    (∃ b, t.getLast? = some b ∧ isDigitPy b = true) := by
  unfold matchD0 at h
  cases h0 : pmLitCI ("DATE OF JUDGMENT:".toList) cs with
  | none => rw [h0] at h; simp at h
  | some x0 =>
    obtain ⟨l0, r1⟩ := x0
    rw [h0] at h
    simp only at h
    rcases hws : pmCls0 isSpacePy r1 with ⟨w, r2⟩
    rw [hws] at h
    simp only at h
    cases h2 : pmExact 2 isDigitPy r2 with
    | none => rw [h2] at h; simp at h
    | some x2 =>
      obtain ⟨a2, r3⟩ := x2
      rw [h2] at h
      simp only at h
      cases h3 : pmLit ['/'] r3 with
      | none => rw [h3] at h; simp at h
      | some x3 =>
        obtain ⟨b3, r4⟩ := x3
        rw [h3] at h
        simp only at h
        cases h4 : pmExact 2 isDigitPy r4 with
        | none => rw [h4] at h; simp at h
        | some x4 =>
          obtain ⟨c4, r5⟩ := x4
          rw [h4] at h
          simp only at h
          cases h5 : pmLit ['/'] r5 with
          | none => rw [h5] at h; simp at h
          | some x5 =>
            obtain ⟨d5, r6⟩ := x5
            rw [h5] at h
            simp only at h
            cases h6 : pmExact 4 isDigitPy r6 with
            | none => rw [h6] at h; simp at h
            | some x6 =>
              obtain ⟨e6, r7⟩ := x6
              rw [h6] at h
              simp only [Option.some.injEq, Prod.mk.injEq] at h
              obtain ⟨rfl, rfl⟩ := h
              constructor
              · obtain ⟨a, hha, hda⟩ := head?_digit_of_pmExact (by omega) h2
                refine ⟨a, ?_, hda⟩
                simp only [List.append_assoc]
                rw [List.head?_append_of_ne_nil _ (pmExact_ne_nil (by omega) h2)]
                exact hha
              · obtain ⟨b, hhb, hdb⟩ := getLast?_digit_of_pmExact (by omega) h6
                refine ⟨b, ?_, hdb⟩
                rw [List.getLast?_append_of_ne_nil _ (pmExact_ne_nil (by omega) h6)]
                exact hhb

/-- The group captured by date patterns 1 and 2 starts and ends with a
digit. -/
theorem matchD12_shape {cs t r : List Char}
    (h : matchD1 cs = some (t, r) ∨ matchD2 cs = some (t, r)) :
    (∃ a, t.head? = some a ∧ isDigitPy a = true) ∧
    (∃ b, t.getLast? = some b ∧ isDigitPy b = true) := by
  rcases h with h | h
  · unfold matchD1 at h
    cases h0 : pmLitCI ("Dated:".toList) cs with
    | none => rw [h0] at h; simp at h
    | some x0 =>
      obtain ⟨l0, r1⟩ := x0
      rw [h0] at h
      simp only at h
      rcases hws : pmCls0 isSpacePy r1 with ⟨w, r2⟩
      rw [hws] at h
      simp only at h
      exact dateGroup_shape h
  · unfold matchD2 at h
    cases h0 : pmLitCI ("judgment delivered on".toList) cs with
    | none => rw [h0] at h; simp at h
    | some x0 =>
      obtain ⟨l0, r1⟩ := x0
      rw [h0] at h
      simp only at h
      rcases hws : pmCls0 isSpacePy r1 with ⟨w, r2⟩
      rw [hws] at h
      simp only at h
      cases h3 : pmLit [':'] r2 with
      | none => rw [h3] at h; simp at h
      | some x3 =>
        obtain ⟨c3, r3⟩ := x3
        rw [h3] at h
        simp only at h
        rcases hws2 : pmCls0 isSpacePy r3 with ⟨w2, r4⟩
        rw [hws2] at h
        simp only at h
        exact dateGroup_shape h

/-- Strip leaves a date group unchanged: it starts and ends with a digit,
and digits are not whitespace. -/
theorem pyStrip_date_group {t : List Char}
    (h : (∃ a, t.head? = some a ∧ isDigitPy a = true) ∧
         (∃ b, t.getLast? = some b ∧ isDigitPy b = true)) : pyStrip t = t := by
  obtain ⟨⟨a, ha, hda⟩, ⟨b, hb, hdb⟩⟩ := h
  exact pyStrip_of_ends ⟨a, ha, digit_not_space hda⟩ ⟨b, hb, digit_not_space hdb⟩

/-- C5: the judgment date tries the three date-label patterns in order and
returns the first match's captured text verbatim (the strip applied by the
code is the identity because the captured group begins and ends with a
digit); when no pattern matches, the result is the literal sentinel
"Date not found", an ordinary return value. -/
theorem c5_judgment_date (t : List Char) :
    (∀ g r, searchG matchD0 t = some (g, r) → extract_judgment_date t = g) ∧
    (searchG matchD0 t = none → ∀ g r, searchG matchD1 t = some (g, r) →
      extract_judgment_date t = g) ∧
    (searchG matchD0 t = none → searchG matchD1 t = none →
      ∀ g r, searchG matchD2 t = some (g, r) → extract_judgment_date t = g) ∧
    (searchG matchD0 t = none → searchG matchD1 t = none → searchG matchD2 t = none →
      extract_judgment_date t = "Date not found".toList) := by
  refine ⟨?_, ?_, ?_, ?_⟩
  · intro g r h
    unfold extract_judgment_date
    rw [h]
    exact pyStrip_date_group
      (searchG_forall matchD0 (fun x =>
        (∃ a, x.1.head? = some a ∧ isDigitPy a = true) ∧
        (∃ b, x.1.getLast? = some b ∧ isDigitPy b = true))
        (fun cs x hx => by
          rcases x with ⟨g', r'⟩
          exact matchD0_shape hx) t (g, r) h)
  · intro h0 g r h
    unfold extract_judgment_date
    rw [h0, h]
    exact pyStrip_date_group
      (searchG_forall matchD1 (fun x =>
        (∃ a, x.1.head? = some a ∧ isDigitPy a = true) ∧
        (∃ b, x.1.getLast? = some b ∧ isDigitPy b = true))
        (fun cs x hx => by
          rcases x with ⟨g', r'⟩
          exact matchD12_shape (Or.inl hx)) t (g, r) h)
  · intro h0 h1 g r h
    unfold extract_judgment_date
    rw [h0, h1, h]
    exact pyStrip_date_group
      (searchG_forall matchD2 (fun x =>
        (∃ a, x.1.head? = some a ∧ isDigitPy a = true) ∧
        (∃ b, x.1.getLast? = some b ∧ isDigitPy b = true))
        (fun cs x hx => by
          rcases x with ⟨g', r'⟩
          exact matchD12_shape (Or.inr hx)) t (g, r) h)
  · intro h0 h1 h2
    unfold extract_judgment_date
    rw [h0, h1, h2]

/-- C5 (witness): a date found by the first pattern is returned verbatim,
and a dateless text yields the sentinel. -/
theorem c5_witness :
    extract_judgment_date ("DATE OF JUDGMENT: 01/02/2021".toList) = "01/02/2021".toList ∧
    extract_judgment_date ("no date in this text".toList) = "Date not found".toList :=
  ⟨(c5_judgment_date _).1 ("01/02/2021".toList) [] (by decide),
   (c5_judgment_date _).2.2.2 (by decide) (by decide) (by decide)⟩

/-- C6: on the text "PETITIONER: Alice\nRESPONDENT: Bob\nDATE OF
JUDGMENT: 01/01/2020" the main-party list is exactly Alice as Petitioner
followed by Bob as Respondent. -/
theorem c6_labeled_parties :
    (extract_parties
        ("PETITIONER: Alice\nRESPONDENT: Bob\nDATE OF JUDGMENT: 01/01/2020".toList)).main =
      [⟨"Alice".toList, "Petitioner".toList, none⟩,
       ⟨"Bob".toList, "Respondent".toList, none⟩] := by
  decide

set_option maxHeartbeats 4000000 in
/-- The act pattern matched at the start of the literal act name consumes
exactly that name, whatever follows: every character the matcher inspects
lies inside the literal, and the final `\d{4}` stops after its four
digits. -/
theorem matchAct_at_literal (v : List Char) :
    matchAct ("The Indian Penal Code Act, 1860".toList ++ v) =
      some ("The Indian Penal Code Act, 1860".toList, v) := rfl

/-- The act pattern cannot match at a position whose first character is
not an upper-case letter: both the optional "The" prefix and the `[A-Z]`
start require one. -/
theorem matchAct_none_of_not_upper (c : Char) (cs : List Char)
    (h : isUpperPy c = false) : matchAct (c :: cs) = none := by
  have hne : ('T' == c) = false := by
    rw [beq_eq_false_iff_ne]
    intro he
    rw [← he] at h
    exact absurd h (by decide)
  simp [matchAct, pmOptC, pmLit, startsWithL, hne, pmExact, h]

/-- Searching for the act pattern in a text that is an occurrence of the
literal act name preceded by upper-case-free text finds exactly the
literal name. -/
theorem searchG_act_literal (u : List Char) :
    ∀ v, (∀ c ∈ u, isUpperPy c = false) →
      searchG matchAct (u ++ ("The Indian Penal Code Act, 1860".toList ++ v)) =
        some ("The Indian Penal Code Act, 1860".toList, v) := by
  induction u with
  | nil => intro v _; exact matchAct_at_literal v
  | cons c u' ih =>
    intro v hu
    have hc := matchAct_none_of_not_upper c
      (u' ++ ("The Indian Penal Code Act, 1860".toList ++ v)) (hu c (by simp))
    have hstep : searchG matchAct ((c :: u') ++ ("The Indian Penal Code Act, 1860".toList ++ v)) =
        searchG matchAct (u' ++ ("The Indian Penal Code Act, 1860".toList ++ v)) := by
      rw [List.cons_append, searchG, hc]
    rw [hstep]
    exact ih v fun d hd => hu d (by simp [hd])

/-- C7 (counterexample): with background "Great The Indian Penal Code Act,
1860" — which contains the claimed substring — the act regex absorbs the
preceding capitalized word into the match, so `challengedActs` holds only
the longer string and not the claimed exact substring. -/
theorem c7_counterexample :
    containsSub ("The Indian Penal Code Act, 1860".toList)
      (extract_case_background
        ("INTRODUCTION\nGreat The Indian Penal Code Act, 1860".toList)).case_background =
      true ∧
    (extract_case_background
        ("INTRODUCTION\nGreat The Indian Penal Code Act, 1860".toList)).challenged_acts =
      ["Great The Indian Penal Code Act, 1860".toList] ∧
    ¬ ("The Indian Penal Code Act, 1860".toList ∈
        (extract_case_background
          ("INTRODUCTION\nGreat The Indian Penal Code Act, 1860".toList)).challenged_acts) := by
  refine ⟨by decide, by decide, by decide⟩

/-- C7 (amended): `challengedActs` is the act-pattern scan of the case
background; for every background in which "The Indian Penal Code Act,
1860" occurs with no upper-case letter anywhere before the occurrence,
the list contains that exact substring.  (In general a capitalized word
immediately preceding the occurrence is absorbed into the matched entry,
which then merely contains the substring.) -/
theorem c7_challenged_acts :
    (∀ t, (extract_case_background t).challenged_acts =
      pyFindallAct (backgroundTextOf t)) ∧
    (∀ u v, (∀ c ∈ u, isUpperPy c = false) →
      "The Indian Penal Code Act, 1860".toList ∈
        pyFindallAct (u ++ ("The Indian Penal Code Act, 1860".toList ++ v))) := by
  constructor
  · intro t; rfl
  · intro u v hu
    unfold pyFindallAct
    rw [finditerG]
    rw [searchG_act_literal u v hu]
    simp only
    rw [show ("The Indian Penal Code Act, 1860".toList).isEmpty = false from by decide]
    simp

/-- C7 (witness): an occurrence preceded only by lower-case text is
extracted exactly. -/
theorem c7_witness :
    "The Indian Penal Code Act, 1860".toList ∈
      pyFindallAct ("the impugned ".toList ++
        ("The Indian Penal Code Act, 1860".toList ++ " was cited".toList)) :=
  c7_challenged_acts.2 ("the impugned ".toList) (" was cited".toList) (by decide)

/-- C8: the extractor is deterministic — it is a pure function of the
document text, so two runs on identical text give identical records. -/
theorem c8_deterministic (t : List Char) :
    extract_court_case_info t = extract_court_case_info t := rfl

/-- C9: the main-party list holds at most one Petitioner and at most one
Respondent (hence at most two entries): each labelled block contributes
only its first match. -/
theorem c9_main_parties_at_most_one_each (t : List Char) :
    ((extract_parties t).main.filter fun p => p.role == "Petitioner".toList).length ≤ 1 ∧
    ((extract_parties t).main.filter fun p => p.role == "Respondent".toList).length ≤ 1 ∧
    (extract_parties t).main.length ≤ 2 := by
  have hm : (extract_parties t).main = mainPartiesOf t := rfl
  rw [hm]
  unfold mainPartiesOf
  have hPP : ((("Petitioner".toList : List Char) == "Petitioner".toList)) = true := by decide
  have hRP : ((("Respondent".toList : List Char) == "Petitioner".toList)) = false := by decide
  have hPR : ((("Petitioner".toList : List Char) == "Respondent".toList)) = false := by decide
  have hRR : ((("Respondent".toList : List Char) == "Respondent".toList)) = true := by decide
  cases searchG matchPet t with
  | none =>
    cases searchG matchResp t with
    | none => simp
    | some x =>
      rcases x with ⟨g, r⟩
      simp [List.filter_cons, hRP, hRR]
  | some x =>
    rcases x with ⟨g, r⟩
    cases searchG matchResp t with
    | none => simp [List.filter_cons, hPP, hPR]
    | some y =>
      rcases y with ⟨g2, r2⟩
      simp [List.filter_cons, hPP, hPR, hRP, hRR]

/-- C10: the consolidated list is the versus-scan entries followed by the
"WITH"-section entries, and every versus-scan entry carries the constant
case number "Related Case", never a citation taken from the text; only
"WITH"-section entries can carry a real case-number string. -/
theorem c10_versus_entries_constant (t : List Char) :
    (extract_parties t).consolidated = versusCases (mainPartiesOf t) t ++ withCases t ∧
    ∀ c ∈ versusCases (mainPartiesOf t) t, c.case_number = "Related Case".toList := by
  refine ⟨rfl, ?_⟩
  intro c hc
  unfold versusCases at hc
  rw [List.mem_filterMap] at hc
  obtain ⟨m, _, hm⟩ := hc
  simp only at hm
  split at hm
  · obtain rfl := Option.some.inj hm
    rfl
  · exact absurd hm (by simp)

/-- C10 (witness): on "A Versus B" the versus scan produces one entry and
its case number is the constant. -/
theorem c10_witness :
    (⟨"Related Case".toList, "A".toList, "B".toList⟩ : ConsolidatedCase).case_number =
      "Related Case".toList :=
  (c10_versus_entries_constant ("A Versus B".toList)).2
    ⟨"Related Case".toList, "A".toList, "B".toList⟩ (by decide)

end CourtApp
